import Mathlib

/-!
Shallow embedding of the rowing test-management backend
(`backend/server.py`).  Persistent state (the Mongo collections) is
modelled as explicit Lean lists of documents; route handlers become pure
functions from the state and the authenticated caller to a result plus
the successor state.  Python floats are modelled by exact rationals and
Python `round(x, 2)` by round-half-to-even on rationals.
-/

namespace Rowing

deriving instance DecidableEq for Except

/-- An HTTP error as raised by `HTTPException(status_code, detail)`. -/
structure HErr where
  status_code : Nat
  detail : String
deriving DecidableEq, Repr

/-- Role string constants from `class UserRole`. -/
def UserRole.SUPER_ADMIN : String := "super_admin"

def UserRole.COACH : String := "coach"

def UserRole.ATHLETE : String := "athlete"

/-- Status string constants from `class UserStatus`. -/
def UserStatus.PENDING : String := "pending"

def UserStatus.APPROVED : String := "approved"

def UserStatus.REJECTED : String := "rejected"

/-- Python `round` on an exact rational: round half to even (banker s
rounding), which is what CPython `round` implements. -/
def pyRound (q : ℚ) : ℤ :=
  let f : ℤ := ⌊q⌋
  let frac : ℚ := q - f
  if frac < 1/2 then f
  else if 1/2 < frac then f + 1
  else if f % 2 = 0 then f else f + 1

/-- Python `round(x, 2)`. -/
def round2 (q : ℚ) : ℚ := (pyRound (q * 100) : ℚ) / 100

/-- `calculate_split_500` from server.py: split time per 500 meters. -/
def calculate_split_500 (distance time_seconds : ℚ) : ℚ :=
  if distance ≤ 0 then 0
  else (time_seconds / distance) * 500

/-- `calculate_watts` from server.py: watts from split/500m by the
standard erg formula, rounded to 2 decimals. -/
def calculate_watts (split_500 : ℚ) : ℚ :=
  if split_500 ≤ 0 then 0
  else
    let pace := split_500
    round2 ((14/5) / (pace / 500) ^ 3)

/-- `calculate_watts_per_kg` from server.py. -/
def calculate_watts_per_kg (watts weight : ℚ) : ℚ :=
  if weight ≤ 0 then 0
  else round2 (watts / weight)

/-- `calculate_category_from_birth_year` from server.py, with the
current calendar year (read from the clock in the source) passed
explicitly. -/
def calculate_category_from_birth_year (current_year : ℤ) (birth_year : ℤ) : String :=
  let age_in_year := current_year - birth_year
  if age_in_year = 10 then "ALLIEVI A"
  else if age_in_year = 11 then "ALLIEVI B1"
  else if age_in_year = 12 then "ALLIEVI B2"
  else if age_in_year = 13 then "ALLIEVI C"
  else if age_in_year = 14 then "CADETTI"
  else if age_in_year = 15 ∨ age_in_year = 16 then "RAGAZZI"
  else if age_in_year = 17 ∨ age_in_year = 18 then "JUNIOR"
  else if 19 ≤ age_in_year ∧ age_in_year ≤ 22 then "UNDER 23"
  else if 23 ≤ age_in_year ∧ age_in_year ≤ 26 then "SENIOR"
  else if 27 ≤ age_in_year then "MASTER"
  else "NON CLASSIFICATO"

/-- A stored `users` collection document, as written by `register`.
`password` holds the bcrypt digest (opaque string here). -/
structure UserDoc where
  id : String
  email : String
  password : String
  name : String
  role : String
  status : String
  society_ids : List String
  birth_year : Option ℤ
  category : Option String
  weight : Option ℚ
  height : Option ℚ
  designated_coach_id : Option String
  created_at : String
deriving DecidableEq, Repr

/-- A stored `tests` collection document, as written by `create_test`. -/
structure TestDoc where
  id : String
  athlete_id : String
  athlete_name : String
  society_id : Option String
  date : String
  distance : ℚ
  time_seconds : ℚ
  split_500 : ℚ
  watts : ℚ
  watts_per_kg : Option ℚ
  strokes : Option ℤ
  weight : Option ℚ
  height : Option ℚ
  notes : Option String
  created_at : String
deriving DecidableEq, Repr

/-- A stored `society_change_requests` collection document. -/
structure SCRequestDoc where
  id : String
  athlete_id : String
  athlete_name : String
  old_society_id : Option String
  new_society_id : String
  new_society_name : String
  status : String
  created_at : String
deriving DecidableEq, Repr

/-- The request body `TestCreate`. -/
structure TestCreate where
  athlete_id : String
  date : String
  distance : ℚ
  time_seconds : ℚ
  strokes : Option ℤ
  weight : Option ℚ
  height : Option ℚ
  notes : Option String
deriving DecidableEq, Repr

/-- The caller identity decoded from the JWT: `user_id`, `email`, `role`. -/
structure Caller where
  user_id : String
  email : String
  role : String
deriving DecidableEq, Repr

/-- Mongo `update_one`: rewrite the first document matching the filter,
leaving every other document in place. -/
def updateFirst (p : α → Bool) (f : α → α) : List α → List α
  | [] => []
  | a :: rest => if p a then f a :: rest else a :: updateFirst p f rest

/-- Membership of an element of the Mongo `$in` operator list in a stored
array field: the document matches when some array element is listed. -/
def mongoInAny (field queryList : List String) : Bool :=
  field.any (fun s => queryList.contains s)

/-- Python `set(a).intersection(set(b))` tested for non-emptiness. -/
def setIntersects (a b : List String) : Bool :=
  a.any (fun s => b.contains s)

/-- The users collection after an operation on it: an HTTP error aborts
the handler before any write, so the state is unchanged. -/
def runUsers (users : List UserDoc) : Except HErr (List UserDoc) → List UserDoc
  | .ok users2 => users2
  | .error _ => users

/-- Users and society-change-requests collections after an operation. -/
def runUsersReqs (users : List UserDoc) (reqs : List SCRequestDoc) :
    Except HErr (List UserDoc × List SCRequestDoc) → List UserDoc × List SCRequestDoc
  | .ok st => st
  | .error _ => (users, reqs)

/-- `approve_user` from server.py: approve a pending user registration.
Returns the error raised, or the updated users collection. -/
def approve_user (users : List UserDoc) (current_user : Caller) (user_id : String) :
    Except HErr (List UserDoc) :=
  match users.find? (fun u => u.id = user_id) with
  | none => .error ⟨404, "Utente non trovato"⟩
  | some user_to_approve =>
    if user_to_approve.status ≠ UserStatus.PENDING then
      .error ⟨400, "L\u0027utente non è in attesa di approvazione"⟩
    else
      let current_user_doc := users.find? (fun u => u.id = current_user.user_id)
      if current_user.role = UserRole.SUPER_ADMIN then
        .ok (updateFirst (fun u => u.id = user_id)
          (fun u => { u with status := UserStatus.APPROVED }) users)
      else if current_user.role = UserRole.COACH then
        if user_to_approve.role ≠ UserRole.ATHLETE ∧ user_to_approve.role ≠ UserRole.COACH then
          .error ⟨403, "Non autorizzato"⟩
        else
          match current_user_doc with
          | none => .error ⟨500, "AttributeError"⟩
          | some cu =>
            if ¬ setIntersects cu.society_ids user_to_approve.society_ids then
              .error ⟨403, "Non autorizzato ad approvare questo utente"⟩
            else
              .ok (updateFirst (fun u => u.id = user_id)
                (fun u => { u with status := UserStatus.APPROVED }) users)
      else .error ⟨403, "Non autorizzato"⟩

/-- `reject_user` from server.py: reject a pending user registration. -/
def reject_user (users : List UserDoc) (current_user : Caller) (user_id : String) :
    Except HErr (List UserDoc) :=
  match users.find? (fun u => u.id = user_id) with
  | none => .error ⟨404, "Utente non trovato"⟩
  | some user_to_reject =>
    if user_to_reject.status ≠ UserStatus.PENDING then
      .error ⟨400, "L\u0027utente non è in attesa di approvazione"⟩
    else
      let current_user_doc := users.find? (fun u => u.id = current_user.user_id)
      if current_user.role = UserRole.SUPER_ADMIN then
        .ok (updateFirst (fun u => u.id = user_id)
          (fun u => { u with status := UserStatus.REJECTED }) users)
      else if current_user.role = UserRole.COACH then
        if user_to_reject.role ≠ UserRole.ATHLETE ∧ user_to_reject.role ≠ UserRole.COACH then
          .error ⟨403, "Non autorizzato"⟩
        else
          match current_user_doc with
          | none => .error ⟨500, "AttributeError"⟩
          | some cu =>
            if ¬ setIntersects cu.society_ids user_to_reject.society_ids then
              .error ⟨403, "Non autorizzato"⟩
            else
              .ok (updateFirst (fun u => u.id = user_id)
                (fun u => { u with status := UserStatus.REJECTED }) users)
      else .error ⟨403, "Non autorizzato"⟩

/-- `approve_society_change` from server.py: approve an athlete society
change request.  On success the athlete society membership is replaced by
the singleton of the new society and the request is marked approved. -/
def approve_society_change (users : List UserDoc) (requests : List SCRequestDoc)
    (current_user : Caller) (request_id : String) :
    Except HErr (List UserDoc × List SCRequestDoc) :=
  match requests.find? (fun r => r.id = request_id) with
  | none => .error ⟨404, "Richiesta non trovata"⟩
  | some request =>
    if request.status ≠ UserStatus.PENDING then
      .error ⟨400, "Richiesta già processata"⟩
    else
      let proceed : Except HErr Unit :=
        if current_user.role = UserRole.COACH then
          match users.find? (fun u => u.id = current_user.user_id) with
          | none => .error ⟨403, "Non autorizzato"⟩
          | some user =>
            if ¬ user.society_ids.contains request.new_society_id then
              .error ⟨403, "Non autorizzato"⟩
            else .ok ()
        else if current_user.role ≠ UserRole.SUPER_ADMIN then
          .error ⟨403, "Non autorizzato"⟩
        else .ok ()
      match proceed with
      | .error e => .error e
      | .ok _ =>
        .ok (updateFirst (fun u => u.id = request.athlete_id)
              (fun u => { u with society_ids := [request.new_society_id] }) users,
            updateFirst (fun r => r.id = request_id)
              (fun r => { r with status := UserStatus.APPROVED }) requests)

/-- Rate-limiting head of `forgot_password` from server.py.  Input: the
`password_reset_attempts` entry for the requested email (`none` when the
email is not a key of the dict) and the current time in seconds; output:
the error raised (if any) and the entry after the call.  Token creation
and email dispatch are collaborator I/O and are not modelled. -/
def forgot_password (attempts : Option (List ℚ)) (now : ℚ) : Option HErr × List ℚ :=
  match attempts with
  | some stored =>
    let pruned := stored.filter (fun ts => now - ts < 3600)
    if 3 ≤ pruned.length then
      (some ⟨429, "Troppi tentativi. Riprova tra 1 ora."⟩, pruned)
    else
      (none, pruned ++ [now])
  | none => (none, [now])

/-- Python `a or b` on two optional floats: `b` when `a` is `None` or
`0`, else `a`. -/
def pyOr (a b : Option ℚ) : Option ℚ :=
  match a with
  | some w => if w = 0 then b else some w
  | none => b

/-- Python truthiness of an optional float. -/
def truthy : Option ℚ → Bool
  | some w => w != 0
  | none => false

/-- `create_test` from server.py.  `test_id` and `created_at` stand for
the generated uuid and clock reading.  Returns the created document (the
handler both stores and returns it). -/
def create_test (users : List UserDoc) (current_user : Caller) (test_data : TestCreate)
    (test_id created_at : String) : Except HErr TestDoc :=
  match users.find? (fun u => u.id = test_data.athlete_id) with
  | none => .error ⟨404, "Utente non trovato"⟩
  | some person =>
    let proceed : Except HErr Unit :=
      if current_user.role = UserRole.ATHLETE then
        if current_user.user_id ≠ test_data.athlete_id then
          .error ⟨403, "Gli atleti possono aggiungere solo i propri test"⟩
        else .ok ()
      else if current_user.role = UserRole.COACH then
        if current_user.user_id ≠ test_data.athlete_id then
          match users.find? (fun u => u.id = current_user.user_id) with
          | none => .error ⟨500, "AttributeError"⟩
          | some user =>
            if ¬ setIntersects user.society_ids person.society_ids then
              .error ⟨403, "Non autorizzato ad aggiungere test per questo utente"⟩
            else .ok ()
        else .ok ()
      else .ok ()
    match proceed with
    | .error e => .error e
    | .ok _ =>
      let split_500 := calculate_split_500 test_data.distance test_data.time_seconds
      let watts := calculate_watts split_500
      let weight := pyOr test_data.weight person.weight
      let watts_per_kg :=
        if truthy weight then some (calculate_watts_per_kg watts (weight.getD 0)) else none
      let society_id := person.society_ids.head?
      .ok { id := test_id
            athlete_id := test_data.athlete_id
            athlete_name := person.name
            society_id := society_id
            date := test_data.date
            distance := test_data.distance
            time_seconds := test_data.time_seconds
            split_500 := split_500
            watts := watts
            watts_per_kg := watts_per_kg
            strokes := test_data.strokes
            weight := weight
            height := pyOr test_data.height person.height
            notes := test_data.notes
            created_at := created_at }

/-- The `query` dict built by `get_tests`, restricted to its
`athlete_id` entry (the only one it ever sets). -/
inductive TestQuery where
  | all
  | eqId (athlete_id : String)
  | inIds (athlete_ids : List String)
deriving DecidableEq, Repr

/-- Whether a stored test matches the query. -/
def TestQuery.matches : TestQuery → TestDoc → Bool
  | .all, _ => true
  | .eqId a, t => t.athlete_id = a
  | .inIds l, t => l.contains t.athlete_id

/-- Stable descending insertion by `date` (string comparison), modelling
`.sort("date", -1)` on the result list. -/
def insertDateDesc (t : TestDoc) : List TestDoc → List TestDoc
  | [] => [t]
  | x :: xs => if x.date < t.date then t :: x :: xs else x :: insertDateDesc t xs

/-- Sort a list of tests by `date` descending. -/
def sortDateDesc (l : List TestDoc) : List TestDoc :=
  l.foldr insertDateDesc []

/-- `get_tests` from server.py: list tests visible to the caller, with
the optional `athlete_id` query parameter. -/
def get_tests (users : List UserDoc) (tests : List TestDoc) (current_user : Caller)
    (athlete_id : Option String) : List TestDoc :=
  let query : TestQuery :=
    if current_user.role = UserRole.ATHLETE then
      .eqId current_user.user_id
    else if current_user.role = UserRole.COACH then
      match users.find? (fun u => u.id = current_user.user_id) with
      | some user =>
        if ¬ user.society_ids.isEmpty then
          let athletes_in_societies := users.filter
            (fun a => mongoInAny a.society_ids user.society_ids ∧ a.role = UserRole.ATHLETE)
          .inIds (athletes_in_societies.map (fun a => a.id))
        else .all
      | none => .all
    else .all
  let query : TestQuery :=
    match athlete_id with
    | some aid => .eqId aid
    | none => query
  sortDateDesc (tests.filter (fun t => query.matches t))

/-- The four fields of a test reported in each `best`/`latest` entry of
the stats payload. -/
structure TestSummary where
  time_seconds : ℚ
  split_500 : ℚ
  watts : ℚ
  date : String
deriving DecidableEq, Repr

/-- Project a stored test to its stats summary. -/
def summarize (t : TestDoc) : TestSummary :=
  { time_seconds := t.time_seconds, split_500 := t.split_500
    watts := t.watts, date := t.date }

/-- One value of the `stats` dict in `get_athlete_stats`. -/
structure DistStat where
  best : TestSummary
  latest : TestSummary
  count : Nat
deriving DecidableEq, Repr

/-- Python dict insertion `d[k] = v`: replace the value at an existing
key in place, else append the binding. -/
def dictSet (k : String) (v : α) : List (String × α) → List (String × α)
  | [] => [(k, v)]
  | (k2, v2) :: rest => if k2 = k then (k, v) :: rest else (k2, v2) :: dictSet k v rest

/-- Python dict insertion for rational keys (`tests_by_distance`). -/
def dictSetQ (k : ℚ) (v : α) : List (ℚ × α) → List (ℚ × α)
  | [] => [(k, v)]
  | (k2, v2) :: rest => if k2 = k then (k, v) :: rest else (k2, v2) :: dictSetQ k v rest

/-- Python dict lookup. -/
def dictGet (k : String) : List (String × α) → Option α
  | [] => none
  | (k2, v2) :: rest => if k2 = k then some v2 else dictGet k rest

/-- Python dict lookup for rational keys. -/
def dictGetQ (k : ℚ) : List (ℚ × α) → Option α
  | [] => none
  | (k2, v2) :: rest => if k2 = k then some v2 else dictGetQ k rest

/-- One step of the `tests_by_distance` grouping loop of
`get_athlete_stats`: append the test to the bucket of its exact
distance, creating the bucket on first sight. -/
def appendToBucket (groups : List (ℚ × List TestDoc)) (t : TestDoc) :
    List (ℚ × List TestDoc) :=
  match dictGetQ t.distance groups with
  | some g => dictSetQ t.distance (g ++ [t]) groups
  | none => groups ++ [(t.distance, [t])]

/-- The `tests_by_distance` dict of `get_athlete_stats`: walk the tests
in order, grouping by exact `distance` value. -/
def tests_by_distance (tests : List TestDoc) : List (ℚ × List TestDoc) :=
  tests.foldl appendToBucket []

/-- First element of Python `sorted(l, key=time_seconds)`: the earliest
record with minimal `time_seconds` (the sort is stable). -/
def firstMinByTime (acc : TestDoc) : List TestDoc → TestDoc
  | [] => acc
  | t :: ts => firstMinByTime (if t.time_seconds < acc.time_seconds then t else acc) ts

/-- First element of Python `sorted(l, key=date, reverse=True)`: the
earliest record with maximal `date` (string comparison, stable sort). -/
def firstMaxByDate (acc : TestDoc) : List TestDoc → TestDoc
  | [] => acc
  | t :: ts => firstMaxByDate (if acc.date < t.date then t else acc) ts

/-- Python `int(q)` (truncation toward zero): truncating division of
the reduced numerator by the (positive) denominator. -/
def pyInt (q : ℚ) : ℤ := q.num.tdiv q.den

/-- The stats key `f"{int(distance)}m"`. -/
def distKey (d : ℚ) : String := toString (pyInt d) ++ "m"

/-- One iteration of the stats loop of `get_athlete_stats`: write the
best/latest/count entry of one distance group under the truncated
distance key (an existing entry under the same key is overwritten, as
for a Python dict assignment). -/
def statsStep (acc : List (String × DistStat)) (p : ℚ × List TestDoc) :
    List (String × DistStat) :=
  match p.2 with
  | [] => acc
  | h :: rest =>
    let best_test := firstMinByTime h rest
    let latest_test := firstMaxByDate h rest
    dictSet (distKey p.1)
      { best := summarize best_test, latest := summarize latest_test
        count := (h :: rest).length } acc

/-- The `stats` dict built by `get_athlete_stats` from the distance
groups: per group, best by minimal time, latest by maximal date, and
the group cardinality, keyed by the truncated distance. -/
def statsOf (groups : List (ℚ × List TestDoc)) : List (String × DistStat) :=
  groups.foldl statsStep []

/-- The payload of `get_athlete_stats` (the `all_tests` echo of the
fetched list is omitted; `stats` is `{}` when the subject has no
tests, which coincides with running the aggregation on `[]`). -/
structure StatsResult where
  athlete_id : String
  tests_count : Nat
  stats : List (String × DistStat)
deriving DecidableEq, Repr

/-- `get_athlete_stats` from server.py: permission check, then the
best/latest/count aggregation per exact distance of the subject tests. -/
def get_athlete_stats (users : List UserDoc) (tests : List TestDoc)
    (current_user : Caller) (athlete_id : String) : Except HErr StatsResult :=
  match users.find? (fun u => u.id = athlete_id) with
  | none => .error ⟨404, "Utente non trovato"⟩
  | some target_user =>
    let can_view : Except HErr Bool :=
      if current_user.user_id = athlete_id then .ok true
      else if current_user.role = UserRole.SUPER_ADMIN then .ok true
      else if current_user.role = UserRole.COACH then
        match users.find? (fun u => u.id = current_user.user_id) with
        | none => .error ⟨500, "AttributeError"⟩
        | some cu =>
          .ok (setIntersects cu.society_ids target_user.society_ids
            || (target_user.designated_coach_id == some current_user.user_id))
      else .ok false
    match can_view with
    | .error e => .error e
    | .ok ok =>
      if ¬ ok then .error ⟨403, "Non autorizzato a visualizzare questi dati"⟩
      else
        let mytests := tests.filter (fun t => t.athlete_id = athlete_id)
        .ok { athlete_id := athlete_id
              tests_count := mytests.length
              stats := statsOf (tests_by_distance mytests) }

/-- The body of the `recalculate_all_categories` loop for one user of
the snapshot: recompute the category from the birth year and, when it
differs from the snapshot value, write it back (by id) and count. -/
def recalcStep (current_year : ℤ) (st : List UserDoc × Nat) (u : UserDoc) :
    List UserDoc × Nat :=
  match u.birth_year with
  | some b =>
    let new_category := calculate_category_from_birth_year current_year b
    if u.category ≠ some new_category then
      (updateFirst (fun v => v.id = u.id)
        (fun v => { v with category := some new_category }) st.1, st.2 + 1)
    else st
  | none => st

/-- `recalculate_all_categories` from server.py: re-derive `category`
for every user with a known birth year, counting actual changes.  The
current calendar year (clock) is passed explicitly. -/
def recalculate_all_categories (current_year : ℤ) (users : List UserDoc)
    (current_user : Caller) : Except HErr (List UserDoc × Nat) :=
  if current_user.role ≠ UserRole.SUPER_ADMIN then
    .error ⟨403, "Solo i Super Admin possono ricalcolare le categorie"⟩
  else
    let users_with_birth_year := users.filter (fun u => u.birth_year.isSome)
    .ok (users_with_birth_year.foldl (recalcStep current_year) (users, 0))

/-- A stored BSON value, covering the field types the user documents
use. -/
inductive BsonValue where
  | str : String → BsonValue
  | num : ℚ → BsonValue
  | int : ℤ → BsonValue
  | strList : List String → BsonValue
  | null : BsonValue
deriving DecidableEq, Repr

/-- Optional string field as stored. -/
def optStr : Option String → BsonValue
  | some s => .str s
  | none => .null

/-- Optional integer field as stored. -/
def optInt : Option ℤ → BsonValue
  | some i => .int i
  | none => .null

/-- Optional float field as stored. -/
def optNum : Option ℚ → BsonValue
  | some q => .num q
  | none => .null

/-- The raw BSON document persisted for a user (field order as written
by `register`; `designated_coach_id` is set by its own endpoint). -/
def UserDoc.toDoc (u : UserDoc) : List (String × BsonValue) :=
  [("id", .str u.id), ("email", .str u.email), ("password", .str u.password),
   ("name", .str u.name), ("role", .str u.role), ("status", .str u.status),
   ("society_ids", .strList u.society_ids), ("birth_year", optInt u.birth_year),
   ("category", optStr u.category), ("weight", optNum u.weight),
   ("height", optNum u.height), ("designated_coach_id", optStr u.designated_coach_id),
   ("created_at", .str u.created_at)]

/-- The Mongo projection `{"_id": 0, "password": 0}` used by every
account-reading endpoint: keep every field except the excluded two. -/
def projNoPassword (doc : List (String × BsonValue)) : List (String × BsonValue) :=
  doc.filter (fun kv => kv.1 ≠ "_id" ∧ kv.1 ≠ "password")

/-- Python truthiness of the optional `user_status` query parameter. -/
def statusMatch (user_status : Option String) (u : UserDoc) : Bool :=
  match user_status with
  | some s => if s = "" then true else u.status = s
  | none => true

/-- `get_me` from server.py: fetch the caller document, password
projected away. -/
def get_me (users : List UserDoc) (current_user : Caller) :
    Except HErr (List (String × BsonValue)) :=
  match users.find? (fun u => u.id = current_user.user_id) with
  | none => .error ⟨404, "User not found"⟩
  | some u => .ok (projNoPassword u.toDoc)

/-- `get_user` from server.py: fetch an account by id, password
projected away. -/
def get_user (users : List UserDoc) (user_id : String) :
    Except HErr (List (String × BsonValue)) :=
  match users.find? (fun u => u.id = user_id) with
  | none => .error ⟨404, "User not found"⟩
  | some u => .ok (projNoPassword u.toDoc)

/-- `get_users` from server.py: role-scoped account listing with the
optional status filter, password projected away. -/
def get_users (users : List UserDoc) (current_user : Caller)
    (user_status : Option String) : List (List (String × BsonValue)) :=
  if current_user.role = UserRole.SUPER_ADMIN then
    (users.filter (statusMatch user_status)).map (fun u => projNoPassword u.toDoc)
  else if current_user.role = UserRole.COACH then
    match users.find? (fun u => u.id = current_user.user_id) with
    | none => []
    | some cu =>
      if cu.society_ids.isEmpty then []
      else
        (users.filter (fun u =>
          mongoInAny u.society_ids cu.society_ids ∧ statusMatch user_status u)).map
          (fun u => projNoPassword u.toDoc)
  else []

/-- `get_pending_users` from server.py: role-scoped pending
registrations, password projected away. -/
def get_pending_users (users : List UserDoc) (current_user : Caller) :
    List (List (String × BsonValue)) :=
  if current_user.role = UserRole.SUPER_ADMIN then
    (users.filter (fun u => u.status = UserStatus.PENDING)).map
      (fun u => projNoPassword u.toDoc)
  else if current_user.role = UserRole.COACH then
    match users.find? (fun u => u.id = current_user.user_id) with
    | none => []
    | some cu =>
      if cu.society_ids.isEmpty then []
      else
        (users.filter (fun u => u.status = UserStatus.PENDING ∧
          mongoInAny u.society_ids cu.society_ids ∧
          (u.role = UserRole.ATHLETE ∨ u.role = UserRole.COACH))).map
          (fun u => projNoPassword u.toDoc)
  else []

/-! ## Concrete sample data for witnesses and counterexamples -/

/-- Sample approved athlete account. -/
def sampleAthleteA : UserDoc :=
  { id := "a1", email := "a1@x.it", password := "hash1", name := "Anna",
    role := "athlete", status := "approved", society_ids := ["s1"],
    birth_year := some 2000, category := some "SENIOR", weight := some 70,
    height := some 180, designated_coach_id := none, created_at := "2025-01-01" }

/-- Sample approved athlete account in the same society. -/
def sampleAthleteB : UserDoc :=
  { id := "a2", email := "a2@x.it", password := "hash2", name := "Bruno",
    role := "athlete", status := "approved", society_ids := ["s1"],
    birth_year := some 2001, category := some "SENIOR", weight := some 80,
    height := some 185, designated_coach_id := none, created_at := "2025-01-02" }

/-- Sample approved coach account. -/
def sampleCoach : UserDoc :=
  { id := "c1", email := "c1@x.it", password := "hash3", name := "Carla",
    role := "coach", status := "approved", society_ids := ["s1"],
    birth_year := none, category := none, weight := none,
    height := none, designated_coach_id := none, created_at := "2025-01-03" }

/-- Sample rejected athlete account. -/
def sampleRejected : UserDoc :=
  { id := "r1", email := "r1@x.it", password := "hash4", name := "Rita",
    role := "athlete", status := "rejected", society_ids := ["s1"],
    birth_year := none, category := none, weight := none,
    height := none, designated_coach_id := none, created_at := "2025-01-04" }

/-- Sample stored test belonging to athlete `a2`. -/
def sampleTestB : TestDoc :=
  { id := "t2", athlete_id := "a2", athlete_name := "Bruno", society_id := some "s1",
    date := "2025-02-01", distance := 500, time_seconds := 100, split_500 := 100,
    watts := 350, watts_per_kg := none, strokes := none, weight := some 80,
    height := none, notes := none, created_at := "2025-02-01" }

/-- Sample stored test belonging to coach `c1` (the subject of a test
may be any role). -/
def sampleTestCoach : TestDoc :=
  { id := "tc", athlete_id := "c1", athlete_name := "Carla", society_id := some "s1",
    date := "2025-02-02", distance := 500, time_seconds := 98, split_500 := 98,
    watts := 370, watts_per_kg := none, strokes := none, weight := none,
    height := none, notes := none, created_at := "2025-02-02" }

/-- Sample pending society-change request for athlete `a1`. -/
def sampleRequest : SCRequestDoc :=
  { id := "q1", athlete_id := "a1", athlete_name := "Anna",
    old_society_id := some "s1", new_society_id := "s2",
    new_society_name := "Societa Due", status := "pending",
    created_at := "2025-03-01" }

/-- Sample super-admin caller identity. -/
def sampleAdminCaller : Caller :=
  { user_id := "root", email := "root@x.it", role := "super_admin" }

/-- The rational 500.5, given in lowest terms. -/
def qFiveHundredHalf : ℚ := Rat.mk' 1001 2 (by norm_num) (by norm_num)

/-- Sample stored test of athlete `a1` over 500. -/
def sampleTestD1 : TestDoc :=
  { id := "t5", athlete_id := "a1", athlete_name := "Anna", society_id := some "s1",
    date := "2025-04-01", distance := 500, time_seconds := 100, split_500 := 100,
    watts := 350, watts_per_kg := none, strokes := none, weight := some 70,
    height := none, notes := none, created_at := "2025-04-01" }

/-- Sample stored test of athlete `a1` over 500.5, a distinct distance
whose integer truncation collides with 500. -/
def sampleTestD2 : TestDoc :=
  { id := "t6", athlete_id := "a1", athlete_name := "Anna", society_id := some "s1",
    date := "2025-04-02", distance := qFiveHundredHalf, time_seconds := 90,
    split_500 := 90, watts := 400, watts_per_kg := none, strokes := none,
    weight := some 70, height := none, notes := none, created_at := "2025-04-02" }

/-- Sample stored test of athlete `a1` over 1000. -/
def sampleTestD3 : TestDoc :=
  { id := "t7", athlete_id := "a1", athlete_name := "Anna", society_id := some "s1",
    date := "2025-04-03", distance := 1000, time_seconds := 210, split_500 := 105,
    watts := 300, watts_per_kg := none, strokes := none, weight := some 70,
    height := none, notes := none, created_at := "2025-04-03" }

/-! ## Helper lemmas -/

theorem find?_updateFirst {α} {p : α → Bool} {f : α → α}
    (hpf : ∀ a, p a = true → p (f a) = true) :
    ∀ (l : List α) (a : α), l.find? p = some a →
      (updateFirst p f l).find? p = some (f a) := by
  intro l
  induction l with
  | nil => intro a h; simp [List.find?] at h
  | cons x xs ih =>
    intro a h
    by_cases hx : p x = true
    · rw [List.find?_cons_of_pos _ hx] at h
      cases h
      simp only [updateFirst, hx, if_true]
      exact List.find?_cons_of_pos _ (hpf x hx)
    · rw [List.find?_cons_of_neg _ hx] at h
      simp only [updateFirst, hx, if_false, Bool.false_eq_true]
      rw [List.find?_cons_of_neg _ hx]
      exact ih a h

theorem mem_updateFirst {α} {p : α → Bool} {f : α → α} :
    ∀ {l : List α} {b : α}, b ∈ updateFirst p f l →
      b ∈ l ∨ ∃ a, a ∈ l ∧ p a = true ∧ b = f a := by
  intro l
  induction l with
  | nil => intro b h; simp [updateFirst] at h
  | cons x xs ih =>
    intro b h
    simp only [updateFirst] at h
    by_cases hx : p x = true
    · simp only [hx, if_true, List.mem_cons] at h
      rcases h with h | h
      · exact Or.inr ⟨x, List.mem_cons_self x xs, hx, h⟩
      · exact Or.inl (List.mem_cons_of_mem x h)
    · simp only [hx, if_false, Bool.false_eq_true, List.mem_cons] at h
      rcases h with h | h
      · exact Or.inl (h ▸ List.mem_cons_self x xs)
      · rcases ih h with h2 | ⟨a, ha, hpa, hb⟩
        · exact Or.inl (List.mem_cons_of_mem x h2)
        · exact Or.inr ⟨a, List.mem_cons_of_mem x ha, hpa, hb⟩

theorem map_updateFirst {α β} {p : α → Bool} {f : α → α} (g : α → β)
    (hg : ∀ a, g (f a) = g a) :
    ∀ l : List α, (updateFirst p f l).map g = l.map g := by
  intro l
  induction l with
  | nil => rfl
  | cons x xs ih =>
    simp only [updateFirst]
    by_cases hx : p x = true
    · simp [hx, hg]
    · simp [hx, ih]

theorem mem_insertDateDesc {t s : TestDoc} :
    ∀ {l : List TestDoc}, t ∈ insertDateDesc s l ↔ t = s ∨ t ∈ l := by
  intro l
  induction l with
  | nil => simp [insertDateDesc]
  | cons x xs ih =>
    simp only [insertDateDesc]
    by_cases hx : x.date < s.date
    · simp [hx, List.mem_cons]
    · simp only [hx, if_false, List.mem_cons, ih]
      tauto

theorem mem_sortDateDesc {t : TestDoc} :
    ∀ {l : List TestDoc}, t ∈ sortDateDesc l ↔ t ∈ l := by
  intro l
  induction l with
  | nil => simp [sortDateDesc]
  | cons x xs ih =>
    simp only [sortDateDesc, List.foldr_cons] at *
    rw [mem_insertDateDesc, ih, List.mem_cons]

theorem not_password_mem_projNoPassword (d : List (String × BsonValue)) (v : BsonValue) :
    ("password", v) ∉ projNoPassword d := by
  intro h
  simp only [projNoPassword, List.mem_filter] at h
  rcases h with ⟨-, h2⟩
  simp at h2

/-! ## Claim theorems -/

/-- C6 (counterexample): the derived metrics at distance 500 and time 95
give split_500 = 95 but watts = 408.22, not approximately 408.65 as the
claim states (the difference is 0.43, far beyond 2-decimal rounding). -/
theorem watts_example_is_408_22_not_408_65 :
    calculate_split_500 500 95 = 95 ∧
    calculate_watts (calculate_split_500 500 95) = 40822/100 ∧
    ¬ |calculate_watts (calculate_split_500 500 95) - 40865/100| < 1/200 := by
  have h2 : calculate_watts (calculate_split_500 500 95) = 40822/100 := by
    norm_num [calculate_split_500, calculate_watts, round2, pyRound]
  refine ⟨by norm_num [calculate_split_500], h2, ?_⟩
  rw [h2]
  norm_num [abs_sub_lt_iff]
  rw [abs_of_pos] <;> norm_num

/-- C6 (amended): for all distance d > 0 and time t > 0 the code
computes split_500 = (t / d) * 500 and watts = 2.8 / (split_500 / 500)^3
rounded to 2 decimal places; in particular for d = 500 and t = 95,
split_500 = 95 and watts = 408.22. -/
theorem metrics_formulas (d t : ℚ) (hd : 0 < d) (ht : 0 < t) :
    calculate_split_500 d t = t / d * 500 ∧
    calculate_watts (calculate_split_500 d t) =
      round2 ((14/5) / (calculate_split_500 d t / 500) ^ 3) ∧
    calculate_split_500 500 95 = 95 ∧
    calculate_watts (calculate_split_500 500 95) = 40822/100 := by
  have hsplit : calculate_split_500 d t = t / d * 500 := by
    simp [calculate_split_500, not_le.mpr hd]
  have hpos : 0 < calculate_split_500 d t := by
    rw [hsplit]
    positivity
  refine ⟨hsplit, ?_, by norm_num [calculate_split_500], ?_⟩
  · simp [calculate_watts, not_le.mpr hpos]
  · norm_num [calculate_split_500, calculate_watts, round2, pyRound]

/-- C6 witness for `metrics_formulas` at d = 500, t = 95. -/
theorem metrics_formulas_witness :
    (0:ℚ) < 500 ∧ (0:ℚ) < 95 ∧
    (calculate_split_500 500 95 = 95 / 500 * 500 ∧
     calculate_watts (calculate_split_500 500 95) =
       round2 ((14/5) / (calculate_split_500 500 95 / 500) ^ 3) ∧
     calculate_split_500 500 95 = 95 ∧
     calculate_watts (calculate_split_500 500 95) = 40822/100) :=
  ⟨by norm_num, by norm_num, metrics_formulas 500 95 (by norm_num) (by norm_num)⟩

/-- C7 (counterexample): creating a test with explicit weight -5 (an
effective weight that is not strictly positive) stores watts_per_kg as
the present value 0, not as an absent field as the claim states. -/
theorem watts_per_kg_present_for_negative_weight :
    (create_test [sampleAthleteA] sampleAdminCaller
        { athlete_id := "a1", date := "2025-02-01", distance := 500,
          time_seconds := 95, strokes := none, weight := some (-5),
          height := none, notes := none } "t9" "2025-02-01").map
      TestDoc.watts_per_kg = Except.ok (some 0) ∧
    pyOr (some (-5)) sampleAthleteA.weight = some (-5) ∧ ¬ (0:ℚ) < -5 := by
  refine ⟨?_, by decide, by norm_num⟩
  simp [create_test, sampleAthleteA, sampleAdminCaller, UserRole.ATHLETE,
    UserRole.COACH, List.find?, pyOr, truthy, calculate_watts_per_kg,
    Except.map]

/-- C7 (amended): split_500 is 0 when distance ≤ 0; watts is 0 when
split_500 ≤ 0; and at test creation, with effective weight meaning the
explicit input weight when it is non-null and non-zero, else the
subject's stored weight, the stored watts_per_kg is absent when the
effective weight is missing or zero, and is the present value 0 when
the effective weight is negative. -/
theorem metrics_boundaries (users : List UserDoc) (cu : Caller) (td : TestCreate)
    (tid ts : String) (person : UserDoc)
    (hfind : users.find? (fun u => u.id = td.athlete_id) = some person)
    (hrole : cu.role = UserRole.SUPER_ADMIN) :
    (∀ d t : ℚ, d ≤ 0 → calculate_split_500 d t = 0) ∧
    (∀ s : ℚ, s ≤ 0 → calculate_watts s = 0) ∧
    ((pyOr td.weight person.weight = none ∨ pyOr td.weight person.weight = some 0) →
      (create_test users cu td tid ts).map TestDoc.watts_per_kg = Except.ok none) ∧
    (∀ q : ℚ, pyOr td.weight person.weight = some q → q < 0 →
      (create_test users cu td tid ts).map TestDoc.watts_per_kg = Except.ok (some 0)) := by
  have hrole2 : cu.role ≠ UserRole.ATHLETE := by
    rw [hrole]; simp [UserRole.SUPER_ADMIN, UserRole.ATHLETE]
  have hrole3 : cu.role ≠ UserRole.COACH := by
    rw [hrole]; simp [UserRole.SUPER_ADMIN, UserRole.COACH]
  refine ⟨fun d t hd => by simp [calculate_split_500, hd],
    fun s hs => by simp [calculate_watts, hs], ?_, ?_⟩
  · intro hw
    rcases hw with hw | hw <;>
      simp [create_test, hfind, hrole2, hrole3, hw, truthy, Except.map]
  · intro q hq hneg
    have hq0 : ¬ q = 0 := by exact ne_of_lt hneg
    simp [create_test, hfind, hrole2, hrole3, hq, truthy, hq0,
      calculate_watts_per_kg, le_of_lt hneg, Except.map]

/-- C7 witness for `metrics_boundaries` on a concrete store. -/
theorem metrics_boundaries_witness :
    ([sampleAthleteB].find? (fun u =>
        u.id = (TestCreate.mk "a2" "d" 500 95 none none none none).athlete_id) =
      some sampleAthleteB) ∧
    sampleAdminCaller.role = UserRole.SUPER_ADMIN ∧
    ((∀ d t : ℚ, d ≤ 0 → calculate_split_500 d t = 0) ∧
     (∀ s : ℚ, s ≤ 0 → calculate_watts s = 0) ∧
     ((pyOr (TestCreate.mk "a2" "d" 500 95 none none none none).weight
         sampleAthleteB.weight = none ∨
       pyOr (TestCreate.mk "a2" "d" 500 95 none none none none).weight
         sampleAthleteB.weight = some 0) →
       (create_test [sampleAthleteB] sampleAdminCaller
         (TestCreate.mk "a2" "d" 500 95 none none none none) "t" "n").map
         TestDoc.watts_per_kg = Except.ok none) ∧
     (∀ q : ℚ, pyOr (TestCreate.mk "a2" "d" 500 95 none none none none).weight
         sampleAthleteB.weight = some q → q < 0 →
       (create_test [sampleAthleteB] sampleAdminCaller
         (TestCreate.mk "a2" "d" 500 95 none none none none) "t" "n").map
         TestDoc.watts_per_kg = Except.ok (some 0))) :=
  ⟨by decide, by decide,
   metrics_boundaries [sampleAthleteB] sampleAdminCaller
     (TestCreate.mk "a2" "d" 500 95 none none none none) "t" "n" sampleAthleteB
     (by decide) (by decide)⟩

/-- C5 (counterexample): when the rate limiter rejects the fourth
attempt inside the window, the current timestamp is not appended: the
recorded list still has 3 entries, not 4. -/
theorem forgot_password_no_append_when_limited :
    forgot_password (some [0, 0, 0]) 0 =
      (some ⟨429, "Troppi tentativi. Riprova tra 1 ora."⟩, [0, 0, 0]) ∧
    (forgot_password (some [0, 0, 0]) 0).2.length = 3 := by
  constructor <;> simp [forgot_password]

/-- C5 (amended): each call prunes the recorded timestamps older than
one hour, fails with RateLimited if at least 3 remain (recording
nothing in that case), and appends the current timestamp otherwise;
hence 3 attempts within a rolling hour succeed, the 4th within the
same hour is RateLimited and leaves the recorded list unchanged, and
an attempt after the window elapses succeeds. -/
theorem forgot_password_window (t : ℚ) :
    forgot_password none t = (none, [t]) ∧
    forgot_password (some [t]) t = (none, [t, t]) ∧
    forgot_password (some [t, t]) t = (none, [t, t, t]) ∧
    forgot_password (some [t, t, t]) t =
      (some ⟨429, "Troppi tentativi. Riprova tra 1 ora."⟩, [t, t, t]) ∧
    forgot_password (some [t, t, t]) (t + 3600) = (none, [t + 3600]) := by
  have hlt : t - t < 3600 := by norm_num
  have hge : ¬ (t + 3600 - t < 3600) := by
    have : t + 3600 - t = 3600 := by ring
    rw [this]
    norm_num
  refine ⟨by simp [forgot_password], ?_, ?_, ?_, ?_⟩ <;>
    simp [forgot_password, hlt, hge]

/-- C3: for an account whose status is approved or rejected, both the
approve and the reject operation fail with the state-transition
conflict error (HTTP 400, "not pending") and leave the stored users
collection, hence the account status, unchanged; so a terminal status
is never left. -/
theorem approve_reject_terminal (users : List UserDoc) (cu : Caller) (uid : String)
    (u : UserDoc) (hfind : users.find? (fun v => v.id = uid) = some u)
    (hst : u.status = UserStatus.APPROVED ∨ u.status = UserStatus.REJECTED) :
    approve_user users cu uid =
      Except.error ⟨400, "L\u0027utente non è in attesa di approvazione"⟩ ∧
    reject_user users cu uid =
      Except.error ⟨400, "L\u0027utente non è in attesa di approvazione"⟩ ∧
    runUsers users (approve_user users cu uid) = users ∧
    runUsers users (reject_user users cu uid) = users := by
  have hne : ¬ u.status = UserStatus.PENDING := by
    rcases hst with h | h <;> rw [h] <;>
      simp [UserStatus.APPROVED, UserStatus.REJECTED, UserStatus.PENDING]
  have ha : approve_user users cu uid =
      Except.error ⟨400, "L\u0027utente non è in attesa di approvazione"⟩ := by
    simp [approve_user, hfind, hne]
  have hr : reject_user users cu uid =
      Except.error ⟨400, "L\u0027utente non è in attesa di approvazione"⟩ := by
    simp [reject_user, hfind, hne]
  exact ⟨ha, hr, by rw [ha]; rfl, by rw [hr]; rfl⟩

/-- C3 witness for `approve_reject_terminal` on a rejected account. -/
theorem approve_reject_terminal_witness :
    ([sampleRejected].find? (fun v => v.id = "r1") = some sampleRejected) ∧
    (sampleRejected.status = UserStatus.APPROVED ∨
      sampleRejected.status = UserStatus.REJECTED) ∧
    (approve_user [sampleRejected] sampleAdminCaller "r1" =
      Except.error ⟨400, "L\u0027utente non è in attesa di approvazione"⟩ ∧
    reject_user [sampleRejected] sampleAdminCaller "r1" =
      Except.error ⟨400, "L\u0027utente non è in attesa di approvazione"⟩ ∧
    runUsers [sampleRejected] (approve_user [sampleRejected] sampleAdminCaller "r1") =
      [sampleRejected] ∧
    runUsers [sampleRejected] (reject_user [sampleRejected] sampleAdminCaller "r1") =
      [sampleRejected]) :=
  ⟨by decide, by decide,
   approve_reject_terminal [sampleRejected] sampleAdminCaller "r1" sampleRejected
     (by decide) (by decide)⟩

/-- C4: approving a pending society-change request replaces the athlete
society membership list with exactly the singleton of the request's
new_society_id and marks the request approved; approving a non-pending
request fails with the conflict error and changes neither collection. -/
theorem approve_society_change_spec (users : List UserDoc) (reqs : List SCRequestDoc)
    (cu : Caller) (rid : String) (req : SCRequestDoc) (athlete : UserDoc)
    (hrole : cu.role = UserRole.SUPER_ADMIN)
    (hreq : reqs.find? (fun r => r.id = rid) = some req)
    (hath : users.find? (fun u => u.id = req.athlete_id) = some athlete) :
    (req.status = UserStatus.PENDING →
      ∃ users2 reqs2,
        approve_society_change users reqs cu rid = Except.ok (users2, reqs2) ∧
        users2.find? (fun u => u.id = req.athlete_id) =
          some { athlete with society_ids := [req.new_society_id] } ∧
        reqs2.find? (fun r => r.id = rid) =
          some { req with status := UserStatus.APPROVED }) ∧
    (req.status ≠ UserStatus.PENDING →
      approve_society_change users reqs cu rid =
        Except.error ⟨400, "Richiesta già processata"⟩ ∧
      runUsersReqs users reqs (approve_society_change users reqs cu rid) =
        (users, reqs)) := by
  have hrole2 : ¬ cu.role = UserRole.COACH := by
    rw [hrole]; simp [UserRole.SUPER_ADMIN, UserRole.COACH]
  constructor
  · intro hpend
    refine ⟨updateFirst (fun u => u.id = req.athlete_id)
        (fun u => { u with society_ids := [req.new_society_id] }) users,
      updateFirst (fun r => r.id = rid)
        (fun r => { r with status := UserStatus.APPROVED }) reqs, ?_, ?_, ?_⟩
    · simp [approve_society_change, hreq, hpend, hrole2, hrole,
        UserRole.SUPER_ADMIN, UserRole.COACH]
    · exact find?_updateFirst (f := fun u => { u with society_ids := [req.new_society_id] })
        (by intro a ha; simpa using ha) users athlete hath
    · exact find?_updateFirst (f := fun r => { r with status := UserStatus.APPROVED })
        (by intro a ha; simpa using ha) reqs req hreq
  · intro hnp
    have he : approve_society_change users reqs cu rid =
        Except.error ⟨400, "Richiesta già processata"⟩ := by
      simp [approve_society_change, hreq, hnp]
    exact ⟨he, by rw [he]; rfl⟩

/-- C4 witness for `approve_society_change_spec` on a pending request. -/
theorem approve_society_change_spec_witness :
    sampleAdminCaller.role = UserRole.SUPER_ADMIN ∧
    ([sampleRequest].find? (fun r => r.id = "q1") = some sampleRequest) ∧
    ([sampleAthleteA].find? (fun u => u.id = sampleRequest.athlete_id) =
      some sampleAthleteA) ∧
    ((sampleRequest.status = UserStatus.PENDING →
      ∃ users2 reqs2,
        approve_society_change [sampleAthleteA] [sampleRequest] sampleAdminCaller "q1" =
          Except.ok (users2, reqs2) ∧
        users2.find? (fun u => u.id = sampleRequest.athlete_id) =
          some { sampleAthleteA with society_ids := [sampleRequest.new_society_id] } ∧
        reqs2.find? (fun r => r.id = "q1") =
          some { sampleRequest with status := UserStatus.APPROVED }) ∧
    (sampleRequest.status ≠ UserStatus.PENDING →
      approve_society_change [sampleAthleteA] [sampleRequest] sampleAdminCaller "q1" =
        Except.error ⟨400, "Richiesta già processata"⟩ ∧
      runUsersReqs [sampleAthleteA] [sampleRequest]
        (approve_society_change [sampleAthleteA] [sampleRequest] sampleAdminCaller "q1") =
        ([sampleAthleteA], [sampleRequest]))) :=
  ⟨by decide, by decide, by decide,
   approve_society_change_spec [sampleAthleteA] [sampleRequest] sampleAdminCaller "q1"
     sampleRequest sampleAthleteA (by decide) (by decide) (by decide)⟩

/-- C1 (code bug evaluation): an athlete caller a1 passing the
athlete_id query filter for another athlete a2 receives a2 tests: the
filter assignment overrides the own-id restriction the handler set for
athlete callers two lines earlier. -/
theorem get_tests_athlete_filter_override :
    get_tests [sampleAthleteA, sampleAthleteB] [sampleTestB]
      { user_id := "a1", email := "a1@x.it", role := "athlete" } (some "a2") =
      [sampleTestB] ∧
    sampleTestB.athlete_id = "a2" ∧ ("a2" : String) ≠ "a1" := by decide

/-- C2 (counterexample): a coach in society s1 listing tests does not
receive the coach own test: the handler restricts to tests of
athlete-role accounts of the shared societies, so the own-test and
designated-coach clauses of the claim do not hold. -/
theorem get_tests_coach_excludes_own_test :
    get_tests [sampleCoach] [sampleTestCoach]
      { user_id := "c1", email := "c1@x.it", role := "coach" } none = [] ∧
    sampleTestCoach.athlete_id = "c1" ∧ sampleCoach.id = "c1" ∧
    sampleTestCoach ∉ ([] : List TestDoc) := by decide

/-- C2 (amended): for a coach caller with a non-empty society list and
no athlete_id filter, the listed tests are exactly the tests whose
subject is an athlete-role account sharing at least one society with
the coach; the coach own tests and the tests of accounts that
designated the coach are not included. -/
theorem get_tests_coach_visibility (users : List UserDoc) (tests : List TestDoc)
    (cu : Caller) (coach : UserDoc)
    (hrole : cu.role = UserRole.COACH)
    (hfind : users.find? (fun u => u.id = cu.user_id) = some coach)
    (hsoc : coach.society_ids ≠ []) :
    ∀ t, t ∈ get_tests users tests cu none ↔
      (t ∈ tests ∧ ∃ a, a ∈ users ∧ a.id = t.athlete_id ∧
        a.role = UserRole.ATHLETE ∧
        ∃ s, s ∈ a.society_ids ∧ s ∈ coach.society_ids) := by
  intro t
  have h1 : ¬ cu.role = UserRole.ATHLETE := by
    rw [hrole]; simp [UserRole.COACH, UserRole.ATHLETE]
  have h2 : ¬ coach.society_ids.isEmpty = true := by
    simpa [List.isEmpty_iff] using hsoc
  simp [get_tests, hrole, hfind, h2, UserRole.COACH, UserRole.ATHLETE,
    mem_sortDateDesc, List.mem_filter, TestQuery.matches, mongoInAny,
    List.any_eq_true, List.mem_map, List.elem_iff]
  tauto

/-- C2 amended witness for `get_tests_coach_visibility`: a coach in s1
sees athlete a2 tests and the characterization holds on this store. -/
theorem get_tests_coach_visibility_witness :
    (⟨"c1", "c1@x.it", "coach"⟩ : Caller).role = UserRole.COACH ∧
    ([sampleCoach, sampleAthleteB].find?
      (fun u => u.id = (⟨"c1", "c1@x.it", "coach"⟩ : Caller).user_id) = some sampleCoach) ∧
    sampleCoach.society_ids ≠ [] ∧
    (∀ t, t ∈ get_tests [sampleCoach, sampleAthleteB] [sampleTestB, sampleTestCoach]
        (⟨"c1", "c1@x.it", "coach"⟩ : Caller) none ↔
      (t ∈ [sampleTestB, sampleTestCoach] ∧
        ∃ a, a ∈ [sampleCoach, sampleAthleteB] ∧ a.id = t.athlete_id ∧
          a.role = UserRole.ATHLETE ∧
          ∃ s, s ∈ a.society_ids ∧ s ∈ sampleCoach.society_ids)) :=
  ⟨by decide, by decide, by decide,
   get_tests_coach_visibility [sampleCoach, sampleAthleteB] [sampleTestB, sampleTestCoach]
     ⟨"c1", "c1@x.it", "coach"⟩ sampleCoach (by decide) (by decide) (by decide)⟩

/-- C10: none of the account-reading operations (own profile, account
listing, pending listing, account by id) ever returns a document
containing the stored password digest: each applies the projection that
strips the password field. -/
theorem account_reads_hide_password (users : List UserDoc) (cu : Caller)
    (ust : Option String) (uid : String) :
    (∀ doc ∈ get_users users cu ust, ∀ v, ("password", v) ∉ doc) ∧
    (∀ doc ∈ get_pending_users users cu, ∀ v, ("password", v) ∉ doc) ∧
    (∀ doc, get_me users cu = Except.ok doc → ∀ v, ("password", v) ∉ doc) ∧
    (∀ doc, get_user users uid = Except.ok doc → ∀ v, ("password", v) ∉ doc) := by
  refine ⟨?_, ?_, ?_, ?_⟩
  · intro doc hdoc v
    by_cases hsa : cu.role = UserRole.SUPER_ADMIN
    · simp [get_users, hsa, List.mem_map] at hdoc
      obtain ⟨u, -, rfl⟩ := hdoc
      exact not_password_mem_projNoPassword _ v
    · by_cases hc : cu.role = UserRole.COACH
      · cases hfind : users.find? (fun u => u.id = cu.user_id) with
        | none =>
          simp [get_users, hsa, hc, hfind, UserRole.SUPER_ADMIN, UserRole.COACH] at hdoc
        | some cu2 =>
          by_cases he : cu2.society_ids.isEmpty = true
          · simp [get_users, hsa, hc, hfind, he,
              UserRole.SUPER_ADMIN, UserRole.COACH] at hdoc
          · simp [get_users, hsa, hc, hfind, he, List.mem_map,
              UserRole.SUPER_ADMIN, UserRole.COACH] at hdoc
            obtain ⟨u, -, rfl⟩ := hdoc
            exact not_password_mem_projNoPassword _ v
      · simp [get_users, hsa, hc] at hdoc
  · intro doc hdoc v
    by_cases hsa : cu.role = UserRole.SUPER_ADMIN
    · simp [get_pending_users, hsa, List.mem_map] at hdoc
      obtain ⟨u, -, rfl⟩ := hdoc
      exact not_password_mem_projNoPassword _ v
    · by_cases hc : cu.role = UserRole.COACH
      · cases hfind : users.find? (fun u => u.id = cu.user_id) with
        | none =>
          simp [get_pending_users, hsa, hc, hfind,
            UserRole.SUPER_ADMIN, UserRole.COACH] at hdoc
        | some cu2 =>
          by_cases he : cu2.society_ids.isEmpty = true
          · simp [get_pending_users, hsa, hc, hfind, he,
              UserRole.SUPER_ADMIN, UserRole.COACH] at hdoc
          · simp [get_pending_users, hsa, hc, hfind, he, List.mem_map,
              UserRole.SUPER_ADMIN, UserRole.COACH] at hdoc
            obtain ⟨u, -, rfl⟩ := hdoc
            exact not_password_mem_projNoPassword _ v
      · simp [get_pending_users, hsa, hc] at hdoc
  · intro doc hdoc v
    cases hfind : users.find? (fun u => u.id = cu.user_id) with
    | none => simp [get_me, hfind] at hdoc
    | some u =>
      simp only [get_me, hfind, Except.ok.injEq] at hdoc
      subst hdoc
      exact not_password_mem_projNoPassword _ v
  · intro doc hdoc v
    cases hfind : users.find? (fun u => u.id = uid) with
    | none => simp [get_user, hfind] at hdoc
    | some u =>
      simp only [get_user, hfind, Except.ok.injEq] at hdoc
      subst hdoc
      exact not_password_mem_projNoPassword _ v

/-- C10 witness for `account_reads_hide_password` on a concrete store. -/
theorem account_reads_hide_password_witness :
    (∀ doc ∈ get_users [sampleAthleteA] sampleAdminCaller none, ∀ v,
      ("password", v) ∉ doc) ∧
    (∀ doc ∈ get_pending_users [sampleAthleteA] sampleAdminCaller, ∀ v,
      ("password", v) ∉ doc) ∧
    (∀ doc, get_me [sampleAthleteA] sampleAdminCaller = Except.ok doc → ∀ v,
      ("password", v) ∉ doc) ∧
    (∀ doc, get_user [sampleAthleteA] "a1" = Except.ok doc → ∀ v,
      ("password", v) ∉ doc) :=
  account_reads_hide_password [sampleAthleteA] sampleAdminCaller none "a1"

/-! ## Lemmas for the category-recompute idempotence -/

theorem mem_updateFirst_of_nodup {f : UserDoc → UserDoc}
    (_hf : ∀ a, (f a).id = a.id) (x : String) :
    ∀ {l : List UserDoc}, (l.map (fun u => u.id)).Nodup →
      ∀ {b : UserDoc}, b ∈ updateFirst (fun u => u.id = x) f l →
        (b.id ≠ x ∧ b ∈ l) ∨ (∃ a, a ∈ l ∧ a.id = x ∧ b = f a) := by
  intro l
  induction l with
  | nil => intro _ b hb; simp [updateFirst] at hb
  | cons c cs ih =>
    intro hnd b hb
    rw [List.map_cons, List.nodup_cons] at hnd
    simp only [updateFirst] at hb
    by_cases hc : c.id = x
    · rw [if_pos (by simp [hc])] at hb
      rcases List.mem_cons.mp hb with hfc | hcs
      · exact Or.inr ⟨c, List.mem_cons_self c cs, hc, hfc⟩
      · refine Or.inl ⟨?_, List.mem_cons_of_mem c hcs⟩
        intro hbx
        have hmem : b.id ∈ cs.map (fun u => u.id) := List.mem_map_of_mem _ hcs
        rw [hbx, ← hc] at hmem
        exact hnd.1 hmem
    · rw [if_neg (by simp [hc])] at hb
      rcases List.mem_cons.mp hb with hbc | hcs
      · exact Or.inl ⟨hbc ▸ hc, hbc ▸ List.mem_cons_self c cs⟩
      · rcases ih hnd.2 hcs with ⟨hne, hmem⟩ | ⟨a, ha, hax, hbfa⟩
        · exact Or.inl ⟨hne, List.mem_cons_of_mem c hmem⟩
        · exact Or.inr ⟨a, List.mem_cons_of_mem c ha, hax, hbfa⟩

theorem recalc_fold_noop (cy : ℤ) :
    ∀ (todo : List UserDoc) (st : List UserDoc) (n : Nat),
      (∀ u ∈ todo, ∀ b : ℤ, u.birth_year = some b →
        u.category = some (calculate_category_from_birth_year cy b)) →
      todo.foldl (recalcStep cy) (st, n) = (st, n) := by
  intro todo
  induction todo with
  | nil => intro st n _; rfl
  | cons u rest ih =>
    intro st n hgood
    rw [List.foldl_cons]
    have hstep : recalcStep cy (st, n) u = (st, n) := by
      cases hb : u.birth_year with
      | none => simp [recalcStep, hb]
      | some b =>
        have := hgood u (List.mem_cons_self u rest) b hb
        simp [recalcStep, hb, this]
    rw [hstep]
    exact ih st n (fun v hv => hgood v (List.mem_cons_of_mem u hv))

theorem recalc_fold_good (cy : ℤ) :
    ∀ (todo : List UserDoc) (st : List UserDoc) (n : Nat),
      (st.map (fun u => u.id)).Nodup →
      (todo.map (fun u => u.id)).Nodup →
      (∀ u ∈ todo, ∀ v ∈ st, v.id = u.id → v = u) →
      (∀ v ∈ st, ∀ b : ℤ, v.birth_year = some b →
        v.id ∈ todo.map (fun u => u.id) ∨
          v.category = some (calculate_category_from_birth_year cy b)) →
      ∀ v ∈ (todo.foldl (recalcStep cy) (st, n)).1, ∀ b : ℤ,
        v.birth_year = some b →
        v.category = some (calculate_category_from_birth_year cy b) := by
  intro todo
  induction todo with
  | nil =>
    intro st n _ _ _ h4 v hv b hb
    rcases h4 v hv b hb with h | h
    · simp at h
    · exact h
  | cons u rest ih =>
    intro st n h1 h2 h3 h4
    rw [List.map_cons, List.nodup_cons] at h2
    rw [List.foldl_cons]
    cases hb : u.birth_year with
    | none =>
      have hstep : recalcStep cy (st, n) u = (st, n) := by simp [recalcStep, hb]
      rw [hstep]
      refine ih st n h1 h2.2 (fun w hw v hv hvw =>
        h3 w (List.mem_cons_of_mem u hw) v hv hvw) ?_
      intro v hv b2 hb2
      rcases h4 v hv b2 hb2 with h | h
      · rw [List.map_cons, List.mem_cons] at h
        rcases h with h | h
        · exact absurd (hb ▸ (h3 u (List.mem_cons_self u rest) v hv h) ▸ hb2)
            (by simp [hb])
        · exact Or.inl h
      · exact Or.inr h
    | some ub =>
      by_cases hcat : u.category =
          some (calculate_category_from_birth_year cy ub)
      · have hstep : recalcStep cy (st, n) u = (st, n) := by
          simp [recalcStep, hb, hcat]
        rw [hstep]
        refine ih st n h1 h2.2 (fun w hw v hv hvw =>
          h3 w (List.mem_cons_of_mem u hw) v hv hvw) ?_
        intro v hv b2 hb2
        rcases h4 v hv b2 hb2 with h | h
        · rw [List.map_cons, List.mem_cons] at h
          rcases h with h | h
          · have hvu := h3 u (List.mem_cons_self u rest) v hv h
            subst hvu
            rw [hb] at hb2
            cases hb2
            exact Or.inr hcat
          · exact Or.inl h
        · exact Or.inr h
      · have hstep : recalcStep cy (st, n) u =
            (updateFirst (fun v => v.id = u.id)
              (fun v : UserDoc =>
                { v with category := some (calculate_category_from_birth_year cy ub) })
              st, n + 1) := by
          simp [recalcStep, hb, hcat]
        rw [hstep]
        have hfid : ∀ a : UserDoc,
            ((fun v : UserDoc =>
              { v with category := some (calculate_category_from_birth_year cy ub) }) a).id
              = a.id :=
          fun a => rfl
        have hmapid : ((updateFirst (fun v => v.id = u.id)
            (fun v : UserDoc =>
              { v with category := some (calculate_category_from_birth_year cy ub) })
            st).map (fun u => u.id)) = st.map (fun u => u.id) :=
          map_updateFirst _ hfid st
        refine ih _ (n + 1) (hmapid ▸ h1) h2.2 ?_ ?_
        · intro w hw v hv hvw
          rcases mem_updateFirst_of_nodup hfid u.id h1 hv with ⟨-, hmem⟩ | ⟨a, _, hax, hvfa⟩
          · exact h3 w (List.mem_cons_of_mem u hw) v hmem hvw
          · exfalso
            have : v.id = u.id := by rw [hvfa, hfid a, hax]
            exact h2.1 (this ▸ hvw ▸ List.mem_map_of_mem (fun u => u.id) hw)
        · intro v hv b2 hb2
          rcases mem_updateFirst_of_nodup hfid u.id h1 hv with ⟨hne, hmem⟩ | ⟨a, ha, hax, hvfa⟩
          · rcases h4 v hmem b2 hb2 with h | h
            · rw [List.map_cons, List.mem_cons] at h
              rcases h with h | h
              · exact absurd h hne
              · exact Or.inl h
            · exact Or.inr h
          · have hau := h3 u (List.mem_cons_self u rest) a ha hax
            subst hau
            have : v.birth_year = some ub := by rw [hvfa, hb]
            rw [hb2] at this
            cases this
            exact Or.inr (by rw [hvfa])

/-- C9: the administrative category recompute is idempotent: when the
account ids are distinct, running it again on the resulting store (in
the same calendar year) changes no account and reports zero changes. -/
theorem recalculate_idempotent (cy : ℤ) (users : List UserDoc) (cu : Caller)
    (hrole : cu.role = UserRole.SUPER_ADMIN)
    (hnodup : (users.map (fun u => u.id)).Nodup) :
    ∀ st1 n1, recalculate_all_categories cy users cu = Except.ok (st1, n1) →
      recalculate_all_categories cy st1 cu = Except.ok (st1, 0) := by
  intro st1 n1 hrun
  have hcond : ¬ cu.role ≠ UserRole.SUPER_ADMIN := by simp [hrole]
  rw [recalculate_all_categories, if_neg hcond] at hrun
  rw [recalculate_all_categories, if_neg hcond]
  have hst1 : st1 =
      ((users.filter (fun u => u.birth_year.isSome)).foldl
        (recalcStep cy) (users, 0)).1 := by
    have := (Except.ok.injEq _ _).mp hrun
    rw [this]
  have hgood : ∀ v ∈ st1, ∀ b : ℤ, v.birth_year = some b →
      v.category = some (calculate_category_from_birth_year cy b) := by
    rw [hst1]
    refine recalc_fold_good cy (users.filter (fun u => u.birth_year.isSome))
      users 0 hnodup
      (hnodup.sublist ((users.filter_sublist).map (fun u => u.id)))
      ?_ ?_
    · intro u hu v hv hvu
      exact List.inj_on_of_nodup_map hnodup hv (List.mem_of_mem_filter hu) hvu
    · intro v hv b hb
      refine Or.inl ?_
      have hvmem : v ∈ users.filter (fun u => u.birth_year.isSome) :=
        List.mem_filter.mpr ⟨hv, by simp [hb]⟩
      exact List.mem_map_of_mem (fun u => u.id) hvmem
  have hnoop : (st1.filter (fun u => u.birth_year.isSome)).foldl
      (recalcStep cy) (st1, 0) = (st1, 0) :=
    recalc_fold_noop cy _ st1 0
      (fun u hu b hb => hgood u (List.mem_of_mem_filter hu) b hb)
  simp only [hnoop]

/-- C9 witness for `recalculate_idempotent` on a concrete store (one
account with a stale category). -/
theorem recalculate_idempotent_witness :
    sampleAdminCaller.role = UserRole.SUPER_ADMIN ∧
    (([sampleAthleteA, sampleCoach].map (fun u => u.id)).Nodup) ∧
    (∀ st1 n1, recalculate_all_categories 2035 [sampleAthleteA, sampleCoach]
        sampleAdminCaller = Except.ok (st1, n1) →
      recalculate_all_categories 2035 st1 sampleAdminCaller = Except.ok (st1, 0)) :=
  ⟨by decide, by decide,
   recalculate_idempotent 2035 [sampleAthleteA, sampleCoach] sampleAdminCaller
     (by decide) (by decide)⟩

/-! ## Lemmas for the stats aggregation -/

theorem dictGetQ_eq_none {α} {k : ℚ} :
    ∀ {l : List (ℚ × α)}, dictGetQ k l = none ↔ k ∉ l.map Prod.fst := by
  intro l
  induction l with
  | nil => simp [dictGetQ]
  | cons kv rest ih =>
    obtain ⟨k2, v2⟩ := kv
    by_cases h : k2 = k
    · simp [dictGetQ, h]
    · simp [dictGetQ, h, ih, Ne.symm h]

theorem dictGetQ_mem {α} {k : ℚ} {v : α} :
    ∀ {l : List (ℚ × α)}, dictGetQ k l = some v → (k, v) ∈ l := by
  intro l
  induction l with
  | nil => intro h; simp [dictGetQ] at h
  | cons kv rest ih =>
    obtain ⟨k2, v2⟩ := kv
    intro h
    by_cases hk : k2 = k
    · rw [dictGetQ, if_pos hk] at h
      cases h
      exact hk ▸ List.mem_cons_self _ _
    · rw [dictGetQ, if_neg hk] at h
      exact List.mem_cons_of_mem _ (ih h)

theorem map_fst_dictSetQ {α} {k : ℚ} {v : α} :
    ∀ {l : List (ℚ × α)}, k ∈ l.map Prod.fst →
      (dictSetQ k v l).map Prod.fst = l.map Prod.fst := by
  intro l
  induction l with
  | nil => intro h; simp at h
  | cons kv rest ih =>
    obtain ⟨k2, v2⟩ := kv
    intro h
    by_cases hk : k2 = k
    · simp [dictSetQ, hk]
    · rw [List.map_cons, List.mem_cons] at h
      rcases h with h | h
      · exact absurd h.symm hk
      · simp [dictSetQ, hk, ih h]

theorem mem_dictSetQ {α} {k : ℚ} {v : α} :
    ∀ {l : List (ℚ × α)}, (l.map Prod.fst).Nodup →
      ∀ {p : ℚ × α}, p ∈ dictSetQ k v l →
        p = (k, v) ∨ (p ∈ l ∧ p.1 ≠ k) := by
  intro l
  induction l with
  | nil =>
    intro _ p hp
    simp only [dictSetQ, List.mem_singleton] at hp
    exact Or.inl hp
  | cons kv rest ih =>
    obtain ⟨k2, v2⟩ := kv
    intro hnd p hp
    rw [List.map_cons, List.nodup_cons] at hnd
    by_cases hk : k2 = k
    · rw [dictSetQ, if_pos hk] at hp
      rcases List.mem_cons.mp hp with hp | hp
      · exact Or.inl hp
      · refine Or.inr ⟨List.mem_cons_of_mem _ hp, ?_⟩
        intro hpk
        have : p.1 ∈ rest.map Prod.fst := List.mem_map_of_mem Prod.fst hp
        rw [hpk, ← hk] at this
        exact hnd.1 this
    · rw [dictSetQ, if_neg hk] at hp
      rcases List.mem_cons.mp hp with hp | hp
      · exact Or.inr ⟨hp ▸ List.mem_cons_self _ _, hp ▸ hk⟩
      · rcases ih hnd.2 hp with h | ⟨hmem, hne⟩
        · exact Or.inl h
        · exact Or.inr ⟨List.mem_cons_of_mem _ hmem, hne⟩

theorem dictGet_dictSet_self {α} (k : String) (v : α) :
    ∀ m : List (String × α), dictGet k (dictSet k v m) = some v := by
  intro m
  induction m with
  | nil => simp [dictSet, dictGet]
  | cons kv rest ih =>
    obtain ⟨k2, v2⟩ := kv
    by_cases hk : k2 = k
    · simp [dictSet, dictGet, hk]
    · simp [dictSet, dictGet, hk, ih]

theorem dictGet_dictSet_ne {α} {k k2 : String} (h : k ≠ k2) (v : α) :
    ∀ m : List (String × α), dictGet k (dictSet k2 v m) = dictGet k m := by
  intro m
  induction m with
  | nil => simp [dictSet, dictGet, Ne.symm h]
  | cons kv rest ih =>
    obtain ⟨k3, v3⟩ := kv
    by_cases hk : k3 = k2
    · subst hk
      simp [dictSet, dictGet, Ne.symm h]
    · by_cases hk3 : k3 = k
      · subst hk3
        simp [dictSet, dictGet, hk]
      · simp [dictSet, dictGet, hk, hk3, ih]

theorem dictGet_statsFoldl {k : String} :
    ∀ (groups : List (ℚ × List TestDoc)) (acc : List (String × DistStat)),
      (∀ p ∈ groups, distKey p.1 ≠ k) →
      dictGet k (groups.foldl statsStep acc) = dictGet k acc := by
  intro groups
  induction groups with
  | nil => intro acc _; rfl
  | cons p gs ih =>
    intro acc hne
    rw [List.foldl_cons]
    rw [ih (statsStep acc p) (fun q hq => hne q (List.mem_cons_of_mem p hq))]
    cases hp2 : p.2 with
    | nil => simp [statsStep, hp2]
    | cons h rest =>
      simp only [statsStep, hp2]
      exact dictGet_dictSet_ne
        (Ne.symm (hne p (List.mem_cons_self p gs))) _ acc

theorem statsOf_lookup :
    ∀ (groups : List (ℚ × List TestDoc)) (acc : List (String × DistStat)),
      (groups.map Prod.fst).Nodup →
      (∀ p ∈ groups, ∀ q ∈ groups, distKey p.1 = distKey q.1 → p.1 = q.1) →
      ∀ (d : ℚ) (h : TestDoc) (rest : List TestDoc), (d, h :: rest) ∈ groups →
        dictGet (distKey d) (groups.foldl statsStep acc) =
          some { best := summarize (firstMinByTime h rest),
                 latest := summarize (firstMaxByDate h rest),
                 count := (h :: rest).length } := by
  intro groups
  induction groups with
  | nil => intro acc _ _ d h rest hmem; simp at hmem
  | cons p0 gs ih =>
    intro acc hnd hinj d h rest hmem
    rw [List.map_cons, List.nodup_cons] at hnd
    rw [List.foldl_cons]
    rcases List.mem_cons.mp hmem with hp0 | hgs
    · have hkey : ∀ q ∈ gs, distKey q.1 ≠ distKey d := by
        intro q hq hkq
        have hq1 : q.1 = d := by
          have := hinj q (List.mem_cons_of_mem p0 hq) (d, h :: rest) hmem hkq
          simpa using this
        apply hnd.1
        rw [← hp0]
        simpa [← hq1] using List.mem_map_of_mem Prod.fst hq
      rw [dictGet_statsFoldl gs (statsStep acc p0) hkey]
      rw [← hp0]
      simp only [statsStep]
      exact dictGet_dictSet_self _ _ acc
    · exact ih (statsStep acc p0) hnd.2
        (fun a ha b hb => hinj a (List.mem_cons_of_mem p0 ha)
          b (List.mem_cons_of_mem p0 hb)) d h rest hgs

theorem firstMinByTime_mem :
    ∀ (l : List TestDoc) (acc : TestDoc),
      firstMinByTime acc l = acc ∨ firstMinByTime acc l ∈ l := by
  intro l
  induction l with
  | nil => intro acc; exact Or.inl rfl
  | cons t ts ih =>
    intro acc
    rw [firstMinByTime]
    rcases ih (if t.time_seconds < acc.time_seconds then t else acc) with h | h
    · by_cases hc : t.time_seconds < acc.time_seconds
      · rw [h, if_pos hc]
        exact Or.inr (List.mem_cons_self t ts)
      · rw [h, if_neg hc]
        exact Or.inl rfl
    · exact Or.inr (List.mem_cons_of_mem t h)

theorem firstMinByTime_le :
    ∀ (l : List TestDoc) (acc : TestDoc),
      (firstMinByTime acc l).time_seconds ≤ acc.time_seconds ∧
      ∀ t ∈ l, (firstMinByTime acc l).time_seconds ≤ t.time_seconds := by
  intro l
  induction l with
  | nil => intro acc; exact ⟨le_refl _, by simp⟩
  | cons t ts ih =>
    intro acc
    rw [firstMinByTime]
    obtain ⟨h1, h2⟩ := ih (if t.time_seconds < acc.time_seconds then t else acc)
    by_cases hc : t.time_seconds < acc.time_seconds
    · rw [if_pos hc] at h1 h2 ⊢
      refine ⟨le_trans h1 (le_of_lt hc), ?_⟩
      intro t2 ht2
      rcases List.mem_cons.mp ht2 with rfl | ht2
      · exact h1
      · exact h2 t2 ht2
    · rw [if_neg hc] at h1 h2 ⊢
      refine ⟨h1, ?_⟩
      intro t2 ht2
      rcases List.mem_cons.mp ht2 with rfl | ht2
      · exact le_trans h1 (le_of_not_lt hc)
      · exact h2 t2 ht2

theorem firstMaxByDate_mem :
    ∀ (l : List TestDoc) (acc : TestDoc),
      firstMaxByDate acc l = acc ∨ firstMaxByDate acc l ∈ l := by
  intro l
  induction l with
  | nil => intro acc; exact Or.inl rfl
  | cons t ts ih =>
    intro acc
    rw [firstMaxByDate]
    rcases ih (if acc.date < t.date then t else acc) with h | h
    · by_cases hc : acc.date < t.date
      · rw [h, if_pos hc]
        exact Or.inr (List.mem_cons_self t ts)
      · rw [h, if_neg hc]
        exact Or.inl rfl
    · exact Or.inr (List.mem_cons_of_mem t h)

theorem firstMaxByDate_ge :
    ∀ (l : List TestDoc) (acc : TestDoc),
      acc.date ≤ (firstMaxByDate acc l).date ∧
      ∀ t ∈ l, t.date ≤ (firstMaxByDate acc l).date := by
  intro l
  induction l with
  | nil => intro acc; exact ⟨le_refl _, by simp⟩
  | cons t ts ih =>
    intro acc
    rw [firstMaxByDate]
    obtain ⟨h1, h2⟩ := ih (if acc.date < t.date then t else acc)
    by_cases hc : acc.date < t.date
    · rw [if_pos hc] at h1 h2 ⊢
      refine ⟨le_trans (le_of_lt hc) h1, ?_⟩
      intro t2 ht2
      rcases List.mem_cons.mp ht2 with rfl | ht2
      · exact h1
      · exact h2 t2 ht2
    · rw [if_neg hc] at h1 h2 ⊢
      refine ⟨h1, ?_⟩
      intro t2 ht2
      rcases List.mem_cons.mp ht2 with rfl | ht2
      · exact le_trans (le_of_not_lt hc) h1
      · exact h2 t2 ht2

theorem tbd_fold_inv :
    ∀ (rest processed : List TestDoc) (groups : List (ℚ × List TestDoc)),
      (groups.map Prod.fst).Nodup →
      (∀ p ∈ groups, p.2 = processed.filter (fun t => t.distance = p.1)) →
      (∀ t ∈ processed, t.distance ∈ groups.map Prod.fst) →
      (∀ p ∈ groups, p.1 ∈ processed.map (fun t => t.distance)) →
      (((rest.foldl appendToBucket groups).map Prod.fst).Nodup ∧
       (∀ p ∈ rest.foldl appendToBucket groups,
         p.2 = (processed ++ rest).filter (fun t => t.distance = p.1)) ∧
       (∀ t ∈ processed ++ rest,
         t.distance ∈ (rest.foldl appendToBucket groups).map Prod.fst) ∧
       (∀ p ∈ rest.foldl appendToBucket groups,
         p.1 ∈ (processed ++ rest).map (fun t => t.distance))) := by
  intro rest
  induction rest with
  | nil =>
    intro processed groups h1 h2 h3 h4
    simp only [List.foldl_nil, List.append_nil]
    exact ⟨h1, h2, h3, h4⟩
  | cons t ts ih =>
    intro processed groups h1 h2 h3 h4
    rw [List.foldl_cons]
    have hinv :
        ((appendToBucket groups t).map Prod.fst).Nodup ∧
        (∀ p ∈ appendToBucket groups t,
          p.2 = (processed ++ [t]).filter (fun s => s.distance = p.1)) ∧
        (∀ s ∈ processed ++ [t],
          s.distance ∈ (appendToBucket groups t).map Prod.fst) ∧
        (∀ p ∈ appendToBucket groups t,
          p.1 ∈ (processed ++ [t]).map (fun s => s.distance)) := by
      cases hget : dictGetQ t.distance groups with
      | some g =>
        have hG : appendToBucket groups t = dictSetQ t.distance (g ++ [t]) groups := by
          simp [appendToBucket, hget]
        have hgmem : (t.distance, g) ∈ groups := dictGetQ_mem hget
        have hkeymem : t.distance ∈ groups.map Prod.fst :=
          List.mem_map_of_mem Prod.fst hgmem
        have hkeys : (appendToBucket groups t).map Prod.fst = groups.map Prod.fst := by
          rw [hG]; exact map_fst_dictSetQ hkeymem
        refine ⟨hkeys ▸ h1, ?_, ?_, ?_⟩
        · intro p hp
          rw [hG] at hp
          rcases mem_dictSetQ h1 hp with rfl | ⟨hpg, hpne⟩
          · have hg2 : g = processed.filter (fun s => s.distance = t.distance) := by
              simpa using h2 (t.distance, g) hgmem
            rw [List.filter_append]
            simp only
            rw [← hg2]
            simp
          · rw [List.filter_append, h2 p hpg]
            have hnil : [t].filter (fun s => s.distance = p.1) = [] := by
              simp [Ne.symm hpne]
            rw [hnil, List.append_nil]
        · intro s hs
          rw [hkeys]
          rcases List.mem_append.mp hs with hs | hs
          · exact h3 s hs
          · rw [List.mem_singleton.mp hs]
            exact hkeymem
        · intro p hp
          rw [hG] at hp
          rcases mem_dictSetQ h1 hp with rfl | ⟨hpg, -⟩
          · simp
          · rw [List.map_append]
            exact List.mem_append_left _ (h4 p hpg)
      | none =>
        have hG : appendToBucket groups t = groups ++ [(t.distance, [t])] := by
          simp [appendToBucket, hget]
        have hkeynot : t.distance ∉ groups.map Prod.fst := dictGetQ_eq_none.mp hget
        refine ⟨?_, ?_, ?_, ?_⟩
        · rw [hG, List.map_append]
          simp [List.nodup_append, h1, hkeynot]
        · intro p hp
          rw [hG] at hp
          rcases List.mem_append.mp hp with hpg | hpnew
          · have hpne : p.1 ≠ t.distance := by
              intro hpe
              exact hkeynot (hpe ▸ List.mem_map_of_mem Prod.fst hpg)
            rw [List.filter_append, h2 p hpg]
            have hnil : [t].filter (fun s => s.distance = p.1) = [] := by
              simp [Ne.symm hpne]
            rw [hnil, List.append_nil]
          · rw [List.mem_singleton.mp hpnew]
            have hprocnone :
                processed.filter (fun s => s.distance = t.distance) = [] := by
              rw [List.filter_eq_nil_iff]
              intro s hs hsd
              have hsd2 : s.distance = t.distance := by simpa using hsd
              exact hkeynot (hsd2 ▸ h3 s hs)
            rw [List.filter_append, hprocnone]
            simp
        · intro s hs
          rw [hG, List.map_append]
          rcases List.mem_append.mp hs with hs | hs
          · exact List.mem_append_left _ (h3 s hs)
          · rw [List.mem_singleton.mp hs]
            exact List.mem_append_right _ (by simp)
        · intro p hp
          rw [hG] at hp
          rcases List.mem_append.mp hp with hpg | hpnew
          · rw [List.map_append]
            exact List.mem_append_left _ (h4 p hpg)
          · rw [List.mem_singleton.mp hpnew, List.map_append]
            exact List.mem_append_right _ (by simp)
    obtain ⟨i1, i2, i3, i4⟩ := hinv
    obtain ⟨k1, k2, k3, k4⟩ := ih (processed ++ [t]) (appendToBucket groups t) i1 i2 i3 i4
    simp only [List.append_assoc, List.singleton_append] at k2 k3 k4
    exact ⟨k1, k2, k3, k4⟩


/-- The grouping of `get_athlete_stats`: its buckets have pairwise
distinct distance keys, hold exactly the records of their distance, and
cover every distance occurring in the input. -/
theorem tests_by_distance_spec (tests : List TestDoc) :
    ((tests_by_distance tests).map Prod.fst).Nodup ∧
    (∀ p ∈ tests_by_distance tests,
      p.2 = tests.filter (fun t => t.distance = p.1)) ∧
    (∀ t ∈ tests, t.distance ∈ (tests_by_distance tests).map Prod.fst) ∧
    (∀ p ∈ tests_by_distance tests, p.1 ∈ tests.map (fun t => t.distance)) := by
  have := tbd_fold_inv tests [] [] (by simp) (by simp) (by simp) (by simp)
  simpa [tests_by_distance] using this

/-- C8 (counterexample): a history with the two distinct distances 500
and 500.5 yields a stats payload with a single entry (the buckets
collide on the truncated key "500m" and the later group overwrites the
earlier), not one entry per distinct distance as the claim states. -/
theorem stats_distance_key_collision :
    (get_athlete_stats [sampleAthleteA] [sampleTestD1, sampleTestD2]
        sampleAdminCaller "a1").map (fun r => r.stats) =
      Except.ok [("500m",
        { best := summarize sampleTestD2, latest := summarize sampleTestD2,
          count := 1 })] ∧
    sampleTestD1.distance ≠ sampleTestD2.distance ∧
    (tests_by_distance [sampleTestD1, sampleTestD2]).length = 2 := by decide

/-- C8 (amended): the statistics operation groups the subject records
by exact distance; provided the distinct distances in the history have
pairwise distinct integer truncations (the payload is keyed by the
truncated distance, and colliding keys overwrite), the payload has, for
every distance value in the history, an entry whose best is a record of
that distance with minimal time_seconds, whose latest is a record of
that distance with maximal date in string order, and whose count is the
number of records with that distance. -/
theorem get_athlete_stats_per_distance (users : List UserDoc) (tests : List TestDoc)
    (cu : Caller) (aid : String) (target : UserDoc)
    (hfind : users.find? (fun u => u.id = aid) = some target)
    (hrole : cu.role = UserRole.SUPER_ADMIN)
    (hinj : ∀ t1 ∈ tests.filter (fun t => t.athlete_id = aid),
            ∀ t2 ∈ tests.filter (fun t => t.athlete_id = aid),
            distKey t1.distance = distKey t2.distance → t1.distance = t2.distance) :
    ∃ res, get_athlete_stats users tests cu aid = Except.ok res ∧
      res.tests_count = (tests.filter (fun t => t.athlete_id = aid)).length ∧
      ∀ d : ℚ, (∃ t ∈ tests.filter (fun t => t.athlete_id = aid), t.distance = d) →
        ∃ e, dictGet (distKey d) res.stats = some e ∧
          e.count = ((tests.filter (fun t => t.athlete_id = aid)).filter
            (fun t => t.distance = d)).length ∧
          (∃ t ∈ tests.filter (fun t => t.athlete_id = aid), t.distance = d ∧
            e.best = summarize t ∧
            ∀ t2 ∈ tests.filter (fun t => t.athlete_id = aid), t2.distance = d →
              t.time_seconds ≤ t2.time_seconds) ∧
          (∃ t ∈ tests.filter (fun t => t.athlete_id = aid), t.distance = d ∧
            e.latest = summarize t ∧
            ∀ t2 ∈ tests.filter (fun t => t.athlete_id = aid), t2.distance = d →
              t2.date ≤ t.date) := by
  have hok : get_athlete_stats users tests cu aid = Except.ok
      { athlete_id := aid,
        tests_count := (tests.filter (fun t => t.athlete_id = aid)).length,
        stats := statsOf (tests_by_distance
          (tests.filter (fun t => t.athlete_id = aid))) } := by
    by_cases huid : cu.user_id = aid <;>
      simp [get_athlete_stats, hfind, hrole, huid,
        UserRole.SUPER_ADMIN, UserRole.COACH]
  refine ⟨_, hok, rfl, ?_⟩
  intro d hd
  obtain ⟨t, htmem, htd⟩ := hd
  obtain ⟨hnd, hbind, hcover, hkeys⟩ :=
    tests_by_distance_spec (tests.filter (fun t => t.athlete_id = aid))
  have hdkey : d ∈ (tests_by_distance
      (tests.filter (fun t => t.athlete_id = aid))).map Prod.fst :=
    htd ▸ hcover t htmem
  obtain ⟨p, hp, hpd⟩ := List.mem_map.mp hdkey
  subst hpd
  have hpfilter : p.2 = (tests.filter (fun t => t.athlete_id = aid)).filter
      (fun t => t.distance = p.1) := hbind p hp
  have htin : t ∈ p.2 := by
    rw [hpfilter]
    exact List.mem_filter.mpr ⟨htmem, by simp [htd]⟩
  cases hp2 : p.2 with
  | nil => rw [hp2] at htin; simp at htin
  | cons h r =>
    have hinjG : ∀ a ∈ tests_by_distance (tests.filter (fun t => t.athlete_id = aid)),
        ∀ b ∈ tests_by_distance (tests.filter (fun t => t.athlete_id = aid)),
        distKey a.1 = distKey b.1 → a.1 = b.1 := by
      intro a ha b hb hk
      obtain ⟨ta, hta, htad⟩ := List.mem_map.mp (hkeys a ha)
      obtain ⟨tb, htb, htbd⟩ := List.mem_map.mp (hkeys b hb)
      rw [← htad, ← htbd]
      exact hinj ta hta tb htb (by rw [htad, htbd]; exact hk)
    have hpmem : (p.1, h :: r) ∈ tests_by_distance
        (tests.filter (fun t => t.athlete_id = aid)) := by
      have hpe : p = (p.1, h :: r) := by
        rw [← hp2]
      exact hpe ▸ hp
    have hlookup := statsOf_lookup
      (tests_by_distance (tests.filter (fun t => t.athlete_id = aid))) []
      hnd hinjG p.1 h r hpmem
    refine ⟨_, hlookup, ?_, ?_, ?_⟩
    · rw [← hp2, hpfilter]
    · have hbmem : firstMinByTime h r ∈ p.2 := by
        rw [hp2]
        rcases firstMinByTime_mem r h with he | he
        · rw [he]; exact List.mem_cons_self h r
        · exact List.mem_cons_of_mem h he
      rw [hpfilter] at hbmem
      obtain ⟨hbmy, hbd⟩ := List.mem_filter.mp hbmem
      refine ⟨firstMinByTime h r, hbmy, by simpa using hbd, rfl, ?_⟩
      intro t2 ht2 ht2d
      have ht2in : t2 ∈ h :: r := by
        rw [← hp2, hpfilter]
        exact List.mem_filter.mpr ⟨ht2, by simp [ht2d]⟩
      obtain ⟨hle1, hle2⟩ := firstMinByTime_le r h
      rcases List.mem_cons.mp ht2in with rfl | ht2in
      · exact hle1
      · exact hle2 t2 ht2in
    · have hbmem : firstMaxByDate h r ∈ p.2 := by
        rw [hp2]
        rcases firstMaxByDate_mem r h with he | he
        · rw [he]; exact List.mem_cons_self h r
        · exact List.mem_cons_of_mem h he
      rw [hpfilter] at hbmem
      obtain ⟨hbmy, hbd⟩ := List.mem_filter.mp hbmem
      refine ⟨firstMaxByDate h r, hbmy, by simpa using hbd, rfl, ?_⟩
      intro t2 ht2 ht2d
      have ht2in : t2 ∈ h :: r := by
        rw [← hp2, hpfilter]
        exact List.mem_filter.mpr ⟨ht2, by simp [ht2d]⟩
      obtain ⟨hge1, hge2⟩ := firstMaxByDate_ge r h
      rcases List.mem_cons.mp ht2in with rfl | ht2in
      · exact hge1
      · exact hge2 t2 ht2in

/-- C8 witness for `get_athlete_stats_per_distance` on a two-distance
history (500 and 1000). -/
theorem get_athlete_stats_per_distance_witness :
    ([sampleAthleteA].find? (fun u => u.id = "a1") = some sampleAthleteA) ∧
    sampleAdminCaller.role = UserRole.SUPER_ADMIN ∧
    (∀ t1 ∈ [sampleTestD1, sampleTestD3].filter (fun t => t.athlete_id = "a1"),
     ∀ t2 ∈ [sampleTestD1, sampleTestD3].filter (fun t => t.athlete_id = "a1"),
      distKey t1.distance = distKey t2.distance → t1.distance = t2.distance) ∧
    (∃ res, get_athlete_stats [sampleAthleteA] [sampleTestD1, sampleTestD3]
        sampleAdminCaller "a1" = Except.ok res ∧
      res.tests_count = ([sampleTestD1, sampleTestD3].filter
        (fun t => t.athlete_id = "a1")).length ∧
      ∀ d : ℚ, (∃ t ∈ [sampleTestD1, sampleTestD3].filter
          (fun t => t.athlete_id = "a1"), t.distance = d) →
        ∃ e, dictGet (distKey d) res.stats = some e ∧
          e.count = (([sampleTestD1, sampleTestD3].filter
            (fun t => t.athlete_id = "a1")).filter
            (fun t => t.distance = d)).length ∧
          (∃ t ∈ [sampleTestD1, sampleTestD3].filter
              (fun t => t.athlete_id = "a1"), t.distance = d ∧
            e.best = summarize t ∧
            ∀ t2 ∈ [sampleTestD1, sampleTestD3].filter
                (fun t => t.athlete_id = "a1"), t2.distance = d →
              t.time_seconds ≤ t2.time_seconds) ∧
          (∃ t ∈ [sampleTestD1, sampleTestD3].filter
              (fun t => t.athlete_id = "a1"), t.distance = d ∧
            e.latest = summarize t ∧
            ∀ t2 ∈ [sampleTestD1, sampleTestD3].filter
                (fun t => t.athlete_id = "a1"), t2.distance = d →
              t2.date ≤ t.date)) :=
  ⟨by decide, by decide, by decide,
   get_athlete_stats_per_distance [sampleAthleteA] [sampleTestD1, sampleTestD3]
     sampleAdminCaller "a1" sampleAthleteA (by decide) (by decide) (by decide)⟩

end Rowing
